/-
  Verification development for the bittle_ROS2 decision/control pipeline.

  Shallow embedding of:
  - the command arbitration buffer of
    bittle_ros2/archive/object_detection_to_command.py (publish_command),
  - the decision engine and mission flags of
    bittle_ros2/archive/object_detection_driver.py (command_logic),
  - the detection classifier loop shared by both files,
  - the serial command encoder of object_detection_driver.py
    (serialWriteNumToByte), including Python 3 str/bytes typing,
  - the heading/navigation controller of bittle_ros2/move_to_grid_server.py
    (move_towards_target, adjust_heading, publish_command), with a small
    IEEE-style value model for the numpy float results (finite rational,
    positive/negative infinity, NaN).

  Machine floats are modelled by NpVal: exact rationals for the finite case,
  with NaN and infinities produced and propagated the way numpy produces them
  in the expressions this code evaluates (0/0 gives NaN, x/0 gives a signed
  infinity, comparisons against NaN are false).  Wall-clock times and bbox
  coordinates are rationals.  Transcendental library calls (np.sqrt composed
  with the caller, np.arccos composed with the rad-to-deg conversion) are
  passed in as function parameters, constrained in theorems only by properties
  those library functions actually have.
-/
import Mathlib

set_option maxRecDepth 8192

namespace BittleROS2

/-! ## Command arbitration buffer
    object_detection_to_command.py, publish_command (lines 74-99).
    The buffer is the spec data model CandidateBuffer: an ordered list of
    (command, delay) proposals. -/

/-- Key list of the Python frequency dict built by the loop
for command_pair in self.command_list (lines 81-86): a dict key is inserted
at the first occurrence of its command, so iteration order over the dict is
first-occurrence order over the buffer. -/
def dedupFirst (l : List String) : List String :=
  l.foldl (fun acc t => if t ∈ acc then acc else acc ++ [t]) []

/-- Python max(iterable, key=f) (line 87): fold that replaces the running
best only on a strictly greater key value, so the first element attaining
the maximum is returned. -/
def maxByKey (f : String → Nat) : List String → Option String
  | [] => none
  | t :: ts => some (ts.foldl (fun best x => if f best < f x then x else best) t)

/-- Line 87: most_frequent_command = max(command_frequency,
key=command_frequency.get).  The dict value of a command is its number of
occurrences among the buffered pairs. -/
def most_frequent_command (cl : List (String × ℚ)) : Option String :=
  maxByKey (fun c => (cl.map Prod.fst).count c) (dedupFirst (cl.map Prod.fst))

/-- Lines 89-92: the pair dispatched is the first buffered pair whose command
equals the most frequent command. -/
def command_to_send (cl : List (String × ℚ)) : Option (String × ℚ) :=
  match most_frequent_command cl with
  | none => none
  | some t => cl.find? (fun p => p.1 == t)

/-! ## Decision engine of object_detection_driver.py -/

/-- One detection bounding box: the four entries x, y, w, h of an xywhn
slice (normalized to the frame). -/
structure Bbox where
  x : ℚ
  y : ℚ
  w : ℚ
  h : ℚ
deriving DecidableEq, Inhabited

/-- Mutable node state of the archive Driver (object_detection_driver.py,
lines 21-23 and 40-49).  mission_complete and collected are declared by
__init__ but never read by command_logic. -/
structure DriverState where
  dir : Nat
  found_acorn : Bool
  searching : Bool
  collecting : Bool
  collected : Bool
  mission_complete : Bool
  black_pheromones_dropped : Nat
  white_pheromones_dropped : Nat
  last_command_time : ℚ
  num_commands_sent : Nat
deriving DecidableEq

/-- Initial node state set by __init__. -/
def initState : DriverState :=
  { dir := 0, found_acorn := false, searching := true, collecting := false,
    collected := false, mission_complete := false,
    black_pheromones_dropped := 0, white_pheromones_dropped := 0,
    last_command_time := 0, num_commands_sent := 0 }

/-- dir_dict (object_detection_driver.py line 14); key -1 ('kbk') is omitted
because command_logic only computes the keys 0-9. -/
def dirDict : Nat → String
  | 0 => "kbalance"
  | 1 => "kcrF"
  | 2 => "kcrL"
  | 3 => "kcrR"
  | 4 => "kpone"
  | 5 => "kptwo"
  | 6 => "kpthree"
  | 7 => "kpfour"
  | 8 => "kcollectF"
  | 9 => "kturn"
  | _ => ""

/-- Acorn branch of command_logic (lines 84-95): thresholds on the last
listed acorn; x strictly above 0.75 turns right (3), x strictly below 0.25
turns left (2), else y strictly above 0.85 collects (8), else forward (1). -/
def acornDir (l : List Bbox) : Nat :=
  if (l.getLastD default).x > 0.75 then 3
  else if (l.getLastD default).x < 0.25 then 2
  else if (l.getLastD default).y > 0.85 then 8
  else 1

/-- Pheromone-following branch of command_logic (lines 97-118): thresholds on
the last listed pheromone; x strictly above 0.75 turns right (3), x strictly
below 0.25 turns left (2), else forward (1). -/
def followDir (l : List Bbox) : Nat :=
  if (l.getLastD default).x > 0.75 then 3
  else if (l.getLastD default).x < 0.25 then 2
  else 1

/-- Normal (pre-override) proposal of command_logic, lines 78-123: the
acorn branch fires on acorn presence; the pheromone branches and the
no-detection SpinSearch (dir 9, 'kturn') fire only while searching; when not
searching and no acorn is listed the proposal is 0 ('kbalance'). -/
def normalDir (searching : Bool) (aL bL wL : List Bbox) : Nat :=
  if aL ≠ [] then acornDir aL
  else if searching then
    if bL ≠ [] then followDir bL
    else if wL ≠ [] ∧ bL = [] then followDir wL
    else 9
  else 0

/-- Modelled from the spec: the priority cascade of section 4.3 as written,
which conditions only on detection presence (acorn, then black pheromone,
then white pheromone, else SpinSearch) and not on the mission flags. -/
def specPriorityDir (aL bL wL : List Bbox) : Nat :=
  if aL ≠ [] then acornDir aL
  else if bL ≠ [] then followDir bL
  else if wL ≠ [] then followDir wL
  else 9

/-- Flag mutation of lines 79-83: the first cycle that lists an acorn sets
found_acorn, clears searching and sets collecting. -/
def flagsUpdate (s : DriverState) (aL : List Bbox) : DriverState :=
  if aL ≠ [] ∧ s.found_acorn = false then
    { s with found_acorn := true, searching := false, collecting := true }
  else s

/-- Periodic drop override of lines 125-135: while found_acorn, drop a
type-1 black pheromone (4) until more than 9 were dropped, then type-2 (5);
while searching, the same with white pheromones and dirs 6/7; in any other
state the proposal is left unchanged. -/
def dropDirOf (found_acorn searching : Bool) (bd wd : Nat) (d : Nat) : Nat :=
  if found_acorn then (if bd ≤ 9 then 4 else 5)
  else if searching then (if wd ≤ 9 then 6 else 7)
  else d

/-- Direction chosen by one command_logic invocation at wall-clock time t:
the normal proposal, replaced by the drop override when at least 5 seconds
elapsed since last_command_time (line 125). -/
def commandLogicDir (s : DriverState) (aL bL wL : List Bbox) (t : ℚ) : Nat :=
  let s1 := flagsUpdate s aL
  let d0 := normalDir s1.searching aL bL wL
  if t - s.last_command_time ≥ 5 then
    dropDirOf s1.found_acorn s1.searching
      s1.black_pheromones_dropped s1.white_pheromones_dropped d0
  else d0

/-- Full state transition of one callback/command_logic cycle (lines 137-141):
when the chosen dir differs from the stored one, the command is sent and
dir, num_commands_sent and last_command_time are updated. -/
def driverStep (s : DriverState) (aL bL wL : List Bbox) (t : ℚ) : DriverState :=
  let s1 := flagsUpdate s aL
  let d := commandLogicDir s aL bL wL t
  if s1.dir ≠ d then
    { s1 with
        dir := d
        num_commands_sent := s1.num_commands_sent + 1
        last_command_time := t }
  else s1

/-- States the driver control loop can reach from __init__ by any sequence
of detection callbacks. -/
inductive Reachable : DriverState → Prop
  | init : Reachable initState
  | step (s : DriverState) (aL bL wL : List Bbox) (t : ℚ) :
      Reachable s → Reachable (driverStep s aL bL wL t)

/-! ## follow_object of object_detection_to_command.py (lines 199-212) -/

/-- follow_object: thresholds on the last listed detection, x strictly above
0.7 turns right, x strictly below 0.3 turns left, else forward; an empty
list rests.  The returned value is the built commands list. -/
def follow_object (l : List Bbox) : List (String × ℚ) :=
  if l ≠ [] then
    if (l.getLastD default).x > 0.7 then [("kcrR", 0)]
    else if (l.getLastD default).x < 0.3 then [("kcrL", 0)]
    else [("kcrF", 0)]
  else [("krest", 0)]

/-! ## Detection classifier
    object_detection_driver.py callback (lines 54-66) and
    object_detection_to_command.py process_detections (lines 159-175):
    identical loops over the flat batch. -/

/-- Classifier loop from index i: results[i] routes the slice
xywhn_list[4*i : 4*(i+1)] to the acorn (0), black pheromone (1) or white
pheromone (2) list; any other label is silently skipped. -/
def classifyFrom (xywhn : List ℚ) : Nat → List ℤ →
    List (List ℚ) × List (List ℚ) × List (List ℚ)
  | _, [] => ([], [], [])
  | i, r :: rs =>
    let rest := classifyFrom xywhn (i + 1) rs
    let slice := (xywhn.drop (4 * i)).take 4
    if r = 0 then (slice :: rest.1, rest.2.1, rest.2.2)
    else if r = 1 then (rest.1, slice :: rest.2.1, rest.2.2)
    else if r = 2 then (rest.1, rest.2.1, slice :: rest.2.2)
    else rest

/-- The classifier applied to a whole batch. -/
def classify (results : List ℤ) (xywhn : List ℚ) :
    List (List ℚ) × List (List ℚ) × List (List ℚ) :=
  classifyFrom xywhn 0 results

/-! ## Serial command encoder
    object_detection_driver.py, serialWriteNumToByte (lines 167-175).
    Python 3 value model: a value under construction is either a str or a
    bytes object; adding them is only defined for matching kinds. -/

/-- A Python value flowing through the encoder: a text string or a bytes
object (one Nat in 0..255 per byte). -/
inductive PyVal
  | pstr (s : String)
  | pbytes (b : List Nat)
deriving DecidableEq

/-- Python 3 binary +: str + str and bytes + bytes concatenate; mixing str
and bytes raises TypeError. -/
def pyAdd : PyVal → PyVal → Except String PyVal
  | .pstr a, .pstr b => .ok (.pstr (a ++ b))
  | .pbytes a, .pbytes b => .ok (.pbytes (a ++ b))
  | _, _ => .error "TypeError: can only concatenate str (not bytes) to str"

/-- struct.pack('b' * len(var), *var): one signed byte per argument, in
argument order, two's complement; an out-of-range argument raises
struct.error. -/
def structPackSigned (var : List ℤ) : Except String (List Nat) :=
  if var.all (fun x => -128 ≤ x ∧ x ≤ 127) then
    .ok (var.map (fun x => (x % 256).toNat))
  else .error "struct.error: byte format requires -128 <= number <= 127"

/-- serialWriteNumToByte restricted to its instruction-string construction
(lines 169-173); the function body then prints instrStr and writes its
encoding to the serial port.  For token 'l' or 'i' the source computes
token + struct.pack('b' * len(var), *var) + '~', a Python 3 str + bytes
addition.  For c/m/u/b it formats the first two arguments in decimal.  Any
other token leaves instrStr unbound and line 174 raises. -/
def serialWriteNumToByte (token : String) (var : List ℤ) :
    Except String PyVal :=
  if token = "l" ∨ token = "i" then
    match structPackSigned var with
    | .error e => .error e
    | .ok packed =>
      match pyAdd (.pstr token) (.pbytes packed) with
      | .error e => .error e
      | .ok s1 => pyAdd s1 (.pstr "~")
  else if token = "c" ∨ token = "m" ∨ token = "u" ∨ token = "b" then
    match var with
    | v0 :: v1 :: _ =>
      .ok (.pstr (token ++ toString v0 ++ " " ++ toString v1 ++ "\n"))
    | _ => .error "IndexError: list index out of range"
  else .error "UnboundLocalError: instrStr referenced before assignment"

/-! ## Heading/navigation controller
    bittle_ros2/move_to_grid_server.py. -/

/-- A numpy float64 result: a finite rational, a signed infinity, or NaN. -/
inductive NpVal
  | num (q : ℚ)
  | inf
  | ninf
  | nan
deriving DecidableEq

/-- IEEE addition on the modelled values. -/
def npAdd : NpVal → NpVal → NpVal
  | .num a, .num b => .num (a + b)
  | .nan, _ => .nan
  | _, .nan => .nan
  | .inf, .ninf => .nan
  | .ninf, .inf => .nan
  | .inf, _ => .inf
  | _, .inf => .inf
  | .ninf, _ => .ninf
  | _, .ninf => .ninf

/-- IEEE multiplication on the modelled values. -/
def npMul : NpVal → NpVal → NpVal
  | .nan, _ => .nan
  | _, .nan => .nan
  | .num a, .num b => .num (a * b)
  | .inf, .inf => .inf
  | .inf, .ninf => .ninf
  | .ninf, .inf => .ninf
  | .ninf, .ninf => .inf
  | .inf, .num b => if b = 0 then .nan else if 0 < b then .inf else .ninf
  | .num a, .inf => if a = 0 then .nan else if 0 < a then .inf else .ninf
  | .ninf, .num b => if b = 0 then .nan else if 0 < b then .ninf else .inf
  | .num a, .ninf => if a = 0 then .nan else if 0 < a then .ninf else .inf

/-- IEEE division on the modelled values: 0/0 is NaN, a nonzero finite
numerator over 0 is a signed infinity (numpy emits a RuntimeWarning but no
exception in either case). -/
def npDiv : NpVal → NpVal → NpVal
  | .nan, _ => .nan
  | _, .nan => .nan
  | .num a, .num b =>
    if b = 0 then (if a = 0 then .nan else if 0 < a then .inf else .ninf)
    else .num (a / b)
  | .num _, .inf => .num 0
  | .num _, .ninf => .num 0
  | .inf, .num b => if 0 ≤ b then .inf else .ninf
  | .ninf, .num b => if 0 ≤ b then .ninf else .inf
  | .inf, .inf => .nan
  | .inf, .ninf => .nan
  | .ninf, .inf => .nan
  | .ninf, .ninf => .nan

/-- IEEE absolute value. -/
def npAbs : NpVal → NpVal
  | .num a => .num |a|
  | .inf => .inf
  | .ninf => .inf
  | .nan => .nan

/-- IEEE strict greater-than: any comparison involving NaN is false. -/
def npGt : NpVal → NpVal → Bool
  | .num a, .num b => decide (b < a)
  | .inf, .inf => false
  | .inf, .nan => false
  | .inf, _ => true
  | .ninf, _ => false
  | .nan, _ => false
  | .num _, .ninf => true
  | .num _, _ => false

/-- IEEE strict less-than. -/
def npLt (a b : NpVal) : Bool := npGt b a

/-- adjust_heading (lines 114-126) with crawl_threshold 10 and
turn_threshold 40: returns the command/delay handed to publish_command, or
none when every branch condition is false (as happens when theta is NaN). -/
def adjust_heading (theta : NpVal) : Option (String × ℚ) :=
  if npLt (npAbs theta) (.num 10) then some ("kcrF", 0)
  else if npGt (npAbs theta) (.num 40) then
    (if npGt theta (.num 0) then some ("kvtL", 1/2) else some ("kvtR", 1/2))
  else if npGt (.num 40) (npAbs theta) && npGt (npAbs theta) (.num 10) then
    (if npGt theta (.num 0) then some ("kcrL", 1/2) else some ("kcrR", 1/2))
  else none

/-- publish_command (lines 128-137): dispatch only when the selected command
differs from the stored current_cmd; returns the dispatched message (if any)
and the new current_cmd. -/
def publish_command (cur command : String) (delay : ℚ) :
    Option (String × ℚ) × String :=
  if command ≠ cur then (some (command, delay), command) else (none, cur)

/-- Outcome of one move_towards_target invocation: the directive selected by
the controller, the message actually dispatched after the debounce, the new
current_cmd, and whether a division whose divisor is zero was evaluated. -/
structure MoveResult where
  selected : Option (String × ℚ)
  published : Option (String × ℚ)
  newCmd : String
  divByZero : Bool
deriving DecidableEq

/-- Dispatch tail of move_towards_target: the selected directive (if any)
goes through the publish_command debounce. -/
def dispatchStep (sel : Option (String × ℚ)) (cur : String) (divB : Bool) :
    MoveResult :=
  match sel with
  | none => ⟨none, none, cur, divB⟩
  | some (c, d) =>
    let pc := publish_command cur c d
    ⟨some (c, d), pc.1, pc.2, divB⟩

/-- move_towards_target (lines 88-111) for direction vector (dx, dy) and
heading unit vector (rx, ry) = (cos, sin of the current heading): sqrtF
models np.sqrt and acosF models np.arccos composed with the *180/pi
conversion of line 103.  error = sqrtF(dx^2 + dy^2); the unit travel vector
is computed by dividing dx and dy by error with no zero guard; when
error > 20 the directive comes from adjust_heading(theta), otherwise the
target is reached and 'krest' is selected.  divByZero records whether the
two divisions at lines 94-95 had a zero divisor. -/
def move_towards_target (sqrtF : ℚ → NpVal) (acosF : NpVal → NpVal)
    (dx dy rx ry : ℚ) (cur : String) : MoveResult :=
  let error := sqrtF (dx ^ 2 + dy ^ 2)
  let Txhat := npDiv (.num dx) error
  let Tyhat := npDiv (.num dy) error
  let TdotR := npAdd (npMul Txhat (.num rx)) (npMul Tyhat (.num ry))
  let theta := acosF TdotR
  dispatchStep
    (if npGt error (.num 20) then adjust_heading theta else some ("krest", 0))
    cur (decide (error = .num 0))

/-- A model of np.sqrt adequate for the zero-error scenarios: exact at 0. -/
def sqrtZeroModel : ℚ → NpVal :=
  fun q => if q = 0 then .num 0 else .nan

/-- A model of the arccos-in-degrees computation adequate for NaN inputs:
np.arccos(nan) is nan. -/
def acosNanModel : NpVal → NpVal := fun _ => .nan

/-! ## Helper lemmas about the driver decision engine -/

theorem flagsUpdate_black (s : DriverState) (aL : List Bbox) :
    (flagsUpdate s aL).black_pheromones_dropped = s.black_pheromones_dropped := by
  unfold flagsUpdate; split <;> rfl

theorem flagsUpdate_white (s : DriverState) (aL : List Bbox) :
    (flagsUpdate s aL).white_pheromones_dropped = s.white_pheromones_dropped := by
  unfold flagsUpdate; split <;> rfl

theorem flagsUpdate_phase (s : DriverState) (aL : List Bbox)
    (h : s.found_acorn = true ∨ s.searching = true) :
    (flagsUpdate s aL).found_acorn = true ∨ (flagsUpdate s aL).searching = true := by
  unfold flagsUpdate; split
  · left; rfl
  · exact h

theorem acornDir_cases (l : List Bbox) :
    acornDir l = 3 ∨ acornDir l = 2 ∨ acornDir l = 8 ∨ acornDir l = 1 := by
  unfold acornDir; split_ifs <;> simp

theorem followDir_cases (l : List Bbox) :
    followDir l = 3 ∨ followDir l = 2 ∨ followDir l = 1 := by
  unfold followDir; split_ifs <;> simp

theorem normalDir_cases (b : Bool) (aL bL wL : List Bbox) :
    normalDir b aL bL wL = 0 ∨ normalDir b aL bL wL = 1 ∨
      normalDir b aL bL wL = 2 ∨ normalDir b aL bL wL = 3 ∨
      normalDir b aL bL wL = 8 ∨ normalDir b aL bL wL = 9 := by
  unfold normalDir
  split_ifs with h1 h2 h3 h4
  · rcases acornDir_cases aL with h | h | h | h <;> simp [h]
  · rcases followDir_cases bL with h | h | h <;> simp [h]
  · rcases followDir_cases wL with h | h | h <;> simp [h]
  · simp
  · simp

theorem normalDir_ne_drop (b : Bool) (aL bL wL : List Bbox) :
    normalDir b aL bL wL ≠ 4 ∧ normalDir b aL bL wL ≠ 5 ∧
      normalDir b aL bL wL ≠ 6 ∧ normalDir b aL bL wL ≠ 7 := by
  rcases normalDir_cases b aL bL wL with h | h | h | h | h | h <;> simp [h]

theorem dropDirOf_mem (fa se : Bool) (bd wd d : Nat) (h : fa = true ∨ se = true) :
    dropDirOf fa se bd wd d = 4 ∨ dropDirOf fa se bd wd d = 5 ∨
      dropDirOf fa se bd wd d = 6 ∨ dropDirOf fa se bd wd d = 7 := by
  unfold dropDirOf
  split_ifs <;> simp_all

theorem dropDirOf_found (se : Bool) (bd wd d : Nat) :
    dropDirOf true se bd wd d = if bd ≤ 9 then 4 else 5 := by
  unfold dropDirOf; simp

theorem dropDirOf_search (bd wd d : Nat) :
    dropDirOf false true bd wd d = if wd ≤ 9 then 6 else 7 := by
  unfold dropDirOf; simp

/-! ## Helper lemmas about the navigation controller -/

theorem dispatchStep_selected (sel : Option (String × ℚ)) (cur : String) (b : Bool) :
    (dispatchStep sel cur b).selected = sel := by
  match sel with
  | none => rfl
  | some (c, d) => simp [dispatchStep]

theorem dispatchStep_published (sel : Option (String × ℚ)) (cur : String) (b : Bool) :
    (dispatchStep sel cur b).published = none ∨
      (dispatchStep sel cur b).published = sel := by
  match sel with
  | none => exact Or.inl rfl
  | some (c, d) =>
    simp only [dispatchStep, publish_command]
    by_cases h : c = cur <;> simp [h]

theorem dispatchStep_twice (sel : Option (String × ℚ)) (cur : String) (b1 b2 : Bool) :
    (dispatchStep sel (dispatchStep sel cur b1).newCmd b2).selected = sel ∧
      (dispatchStep sel (dispatchStep sel cur b1).newCmd b2).published = none := by
  match sel with
  | none => exact ⟨rfl, rfl⟩
  | some (c, d) =>
    simp only [dispatchStep, publish_command]
    by_cases h : c = cur <;> simp [h]

theorem adjust_heading_no_right (theta : NpVal)
    (h : theta = NpVal.nan ∨ ∃ q, theta = NpVal.num q ∧ 0 ≤ q) (d : ℚ) :
    adjust_heading theta ≠ some ("kvtR", d) ∧
      adjust_heading theta ≠ some ("kcrR", d) := by
  rcases h with rfl | ⟨q, rfl, hq⟩
  · constructor <;> simp [adjust_heading, npAbs, npLt, npGt]
  · by_cases h1 : q < 10
    · constructor <;>
        simp [adjust_heading, npLt, npGt, npAbs, abs_of_nonneg hq, h1]
    · by_cases h2 : 40 < q
      · have h0 : (0 : ℚ) < q := by linarith
        constructor <;>
          simp [adjust_heading, npLt, npGt, npAbs, abs_of_nonneg hq, h1, h2, h0]
      · rcases lt_or_ge q 40 with h4 | h4
        · by_cases h3 : 10 < q
          · have h0 : (0 : ℚ) < q := by linarith
            constructor <;>
              simp [adjust_heading, npLt, npGt, npAbs, abs_of_nonneg hq,
                h1, h2, h3, h4, h0]
          · constructor <;>
              simp [adjust_heading, npLt, npGt, npAbs, abs_of_nonneg hq,
                h1, h2, h3, h4]
        · have h40 : ¬ (q < 40) := not_lt.mpr h4
          constructor <;>
            simp [adjust_heading, npLt, npGt, npAbs, abs_of_nonneg hq,
              h1, h2, h40]

/-! ## Claim theorems -/

/-- C2: in the driver phases (pursuing, i.e. found_acorn, or searching) the
periodic drop override replaces the normal proposal exactly when at least 5
seconds elapsed since last_command_time; while pursuing it yields dir 4
(DropType1, 'kpone') when black_pheromones_dropped is at most 9 and dir 5
(DropType2, 'kptwo') once it exceeds 9 — in particular DropType2 at 10 —
and symmetrically dirs 6/7 with white_pheromones_dropped while searching. -/
theorem C2_drop_override (s : DriverState) (aL bL wL : List Bbox) (t : ℚ)
    (hp : s.found_acorn = true ∨ s.searching = true) :
    (t - s.last_command_time ≥ 5 →
      commandLogicDir s aL bL wL t ≠
          normalDir (flagsUpdate s aL).searching aL bL wL ∧
      ((flagsUpdate s aL).found_acorn = true →
        commandLogicDir s aL bL wL t =
          if s.black_pheromones_dropped ≤ 9 then 4 else 5) ∧
      ((flagsUpdate s aL).found_acorn = false →
          (flagsUpdate s aL).searching = true →
        commandLogicDir s aL bL wL t =
          if s.white_pheromones_dropped ≤ 9 then 6 else 7)) ∧
    (t - s.last_command_time < 5 →
      commandLogicDir s aL bL wL t =
        normalDir (flagsUpdate s aL).searching aL bL wL) := by
  constructor
  · intro ht
    have hcmd : commandLogicDir s aL bL wL t =
        dropDirOf (flagsUpdate s aL).found_acorn (flagsUpdate s aL).searching
          (flagsUpdate s aL).black_pheromones_dropped
          (flagsUpdate s aL).white_pheromones_dropped
          (normalDir (flagsUpdate s aL).searching aL bL wL) := by
      simp only [commandLogicDir]
      rw [if_pos ht]
    refine ⟨?_, ?_, ?_⟩
    · rw [hcmd]
      intro hc
      have hne := normalDir_ne_drop (flagsUpdate s aL).searching aL bL wL
      rcases dropDirOf_mem _ _ _ _ _ (flagsUpdate_phase s aL hp) with h | h | h | h <;>
        rw [h] at hc
      · exact hne.1 hc.symm
      · exact hne.2.1 hc.symm
      · exact hne.2.2.1 hc.symm
      · exact hne.2.2.2 hc.symm
    · intro hf
      rw [hcmd, hf, dropDirOf_found, flagsUpdate_black]
    · intro hnf hs
      rw [hcmd, hnf, hs, dropDirOf_search, flagsUpdate_white]
  · intro ht
    simp only [commandLogicDir]
    rw [if_neg (by linarith)]

/-- C2 witness: a pursuing state with 10 black pheromones dropped and 6
seconds elapsed is overridden to dir 5 (DropType2, 'kptwo'). -/
theorem C2_drop_override_witness :
    commandLogicDir { initState with
        found_acorn := true
        searching := false
        collecting := true
        black_pheromones_dropped := 10 } [] [] [] 6 = 5 := by
  have h := (C2_drop_override { initState with
      found_acorn := true
      searching := false
      collecting := true
      black_pheromones_dropped := 10 } [] [] [] 6 (Or.inl rfl)).1
    (by norm_num [initState])
  have h2 := h.2.1 (by decide)
  simpa using h2

/-- C5 counterexample: with searching false (reachable once an acorn was
found) and an empty acorn list, a non-empty black-pheromone list does not
produce a black-following proposal: the code proposes 0 ('kbalance') while
the claimed presence-based cascade proposes 1 (MoveForward). -/
theorem C5_counterexample :
    normalDir false [] [⟨0.5, 0.5, 0.1, 0.1⟩] [] = 0 ∧
    specPriorityDir [] [⟨0.5, 0.5, 0.1, 0.1⟩] [] = 1 ∧
    normalDir false [] [⟨0.5, 0.5, 0.1, 0.1⟩] [] ≠
      specPriorityDir [] [⟨0.5, 0.5, 0.1, 0.1⟩] [] := by
  have h1 : normalDir false [] [⟨0.5, 0.5, 0.1, 0.1⟩] [] = 0 := by
    norm_num [normalDir]
  have h2 : specPriorityDir [] [⟨0.5, 0.5, 0.1, 0.1⟩] [] = 1 := by
    norm_num [specPriorityDir, followDir]
  exact ⟨h1, h2, by rw [h1, h2]; decide⟩

/-- C5 amended: the acorn branch follows the spec cascade unconditionally,
but the pheromone branches and the no-detection SpinSearch proposal fire
only while searching; when not searching and no acorn is listed the proposal
is 0 ('kbalance') regardless of the pheromone lists. -/
theorem C5_priority (searching : Bool) (aL bL wL : List Bbox) :
    (searching = true → normalDir searching aL bL wL = specPriorityDir aL bL wL) ∧
    (searching = false →
      normalDir searching aL bL wL = if aL ≠ [] then acornDir aL else 0) := by
  constructor
  · rintro rfl
    unfold normalDir specPriorityDir
    by_cases ha : aL = [] <;> by_cases hb : bL = [] <;> by_cases hw : wL = [] <;>
      simp [ha, hb, hw]
  · rintro rfl
    unfold normalDir
    by_cases ha : aL = [] <;> simp [ha]

/-- C5 witness: while searching with no detections the proposal is 9
(SpinSearch, 'kturn'). -/
theorem C5_priority_witness : normalDir true [] [] [] = 9 := by
  have h := (C5_priority true [] [] []).1 rfl
  simpa [specPriorityDir] using h

/-- C6 counterexample: follow_object of object_detection_to_command.py uses
thresholds 0.7/0.3, so the boundary value x = 0.75 of the claim selects
TurnRight ('kcrR'), not MoveForward. -/
theorem C6_counterexample :
    follow_object [⟨0.75, 0.5, 0.1, 0.1⟩] = [("kcrR", 0)] ∧
      ("kcrR" : String) ≠ "kcrF" := by
  constructor
  · norm_num [follow_object]
  · decide

/-- C6 amended: threshold comparisons are strict in both deciders, each
against its own constants.  In the driver (thresholds 0.75/0.25) the
boundary values x = 0.75 and x = 0.25 never select a turn: the pheromone
branch selects 1 (MoveForward) and the acorn branch selects 1 or, when its
vertical override fires, 8 (Collect).  In follow_object (thresholds
0.7/0.3) the boundary values are x = 0.7 and x = 0.3, and they select
'kcrF' (MoveForward); x = 0.75 there selects TurnRight. -/
theorem C6_thresholds (l l2 : List Bbox)
    (hx : (l.getLastD default).x = 0.75 ∨ (l.getLastD default).x = 0.25)
    (h2 : l2 ≠ [])
    (hx2 : (l2.getLastD default).x = 0.7 ∨ (l2.getLastD default).x = 0.3) :
    followDir l = 1 ∧ acornDir l ≠ 2 ∧ acornDir l ≠ 3 ∧
      (acornDir l = 1 ∨ acornDir l = 8) ∧
      follow_object l2 = [("kcrF", 0)] := by
  have hf : followDir l = 1 := by
    unfold followDir
    rcases hx with hx | hx <;> rw [hx] <;> norm_num
  have ha : acornDir l = 1 ∨ acornDir l = 8 := by
    unfold acornDir
    rcases hx with hx | hx <;> rw [hx] <;> norm_num <;> exact le_or_lt _ _
  have hfo : follow_object l2 = [("kcrF", 0)] := by
    unfold follow_object
    rw [if_pos h2]
    rcases hx2 with hx2 | hx2 <;> rw [hx2] <;> norm_num
  refine ⟨hf, ?_, ?_, ha, hfo⟩ <;> rcases ha with h | h <;> simp [h]

/-- C6 witness: boundary inputs at x = 0.75 for the driver and x = 0.7 for
follow_object. -/
theorem C6_thresholds_witness :
    followDir [⟨0.75, 0.5, 0.1, 0.1⟩] = 1 ∧
      acornDir [⟨0.75, 0.5, 0.1, 0.1⟩] ≠ 2 ∧
      acornDir [⟨0.75, 0.5, 0.1, 0.1⟩] ≠ 3 ∧
      (acornDir [⟨0.75, 0.5, 0.1, 0.1⟩] = 1 ∨
        acornDir [⟨0.75, 0.5, 0.1, 0.1⟩] = 8) ∧
      follow_object [⟨0.7, 0.5, 0.1, 0.1⟩] = [("kcrF", 0)] :=
  C6_thresholds [⟨0.75, 0.5, 0.1, 0.1⟩] [⟨0.7, 0.5, 0.1, 0.1⟩]
    (Or.inl (by rfl)) (by simp) (Or.inl (by rfl))

theorem reachable_counters (s : DriverState) (h : Reachable s) :
    s.black_pheromones_dropped = 0 ∧ s.white_pheromones_dropped = 0 := by
  induction h with
  | init => exact ⟨rfl, rfl⟩
  | step s aL bL wL t hs ih =>
    have hb := flagsUpdate_black s aL
    have hw := flagsUpdate_white s aL
    simp only [driverStep]
    split <;> simp_all

theorem commandLogicDir_of_zero (s : DriverState)
    (hb : s.black_pheromones_dropped = 0) (hw : s.white_pheromones_dropped = 0)
    (aL bL wL : List Bbox) (t : ℚ) :
    commandLogicDir s aL bL wL t ≠ 5 ∧ commandLogicDir s aL bL wL t ≠ 7 := by
  have hb1 : (flagsUpdate s aL).black_pheromones_dropped = 0 := by
    rw [flagsUpdate_black]; exact hb
  have hw1 : (flagsUpdate s aL).white_pheromones_dropped = 0 := by
    rw [flagsUpdate_white]; exact hw
  have hne := normalDir_ne_drop (flagsUpdate s aL).searching aL bL wL
  simp only [commandLogicDir, dropDirOf, hb1, hw1]
  split_ifs <;> simp_all

/-- C10: in every reachable state of the driver control loop both pheromone
counters are 0 (they are initialized to 0 and never incremented), so
command_logic never chooses dir 5 (DropType2, 'kptwo') or dir 7 (DropType4,
'kpfour'). -/
theorem C10_counters_zero (s : DriverState) (h : Reachable s) :
    s.black_pheromones_dropped = 0 ∧ s.white_pheromones_dropped = 0 ∧
      ∀ (aL bL wL : List Bbox) (t : ℚ),
        commandLogicDir s aL bL wL t ≠ 5 ∧ commandLogicDir s aL bL wL t ≠ 7 := by
  obtain ⟨hb, hw⟩ := reachable_counters s h
  exact ⟨hb, hw, fun aL bL wL t => commandLogicDir_of_zero s hb hw aL bL wL t⟩

/-- C10 witness: the invariant instantiated at the initial state. -/
theorem C10_counters_zero_witness :
    initState.black_pheromones_dropped = 0 ∧
      initState.white_pheromones_dropped = 0 ∧
      ∀ (aL bL wL : List Bbox) (t : ℚ),
        commandLogicDir initState aL bL wL t ≠ 5 ∧
          commandLogicDir initState aL bL wL t ≠ 7 :=
  C10_counters_zero initState Reachable.init

/-- C3: the claim describes the intended 'l'/'i' framing (token byte, one
signed byte per argument in order, terminator '~'), but under Python 3 the
expression token + struct.pack(...) + '~' adds a str to a bytes object and
raises TypeError before anything is written: with token 'l' and the
in-range arguments [3, -2] (which struct.pack would encode as the bytes
3 and 254) the encoder fails instead of producing the claimed sequence. -/
theorem C3_encoder_type_error :
    serialWriteNumToByte "l" [3, -2] =
      Except.error "TypeError: can only concatenate str (not bytes) to str" ∧
      structPackSigned [3, -2] = Except.ok [3, 254] := by
  constructor <;> rfl

/-- C4 counterexample: at zero distance error (robot exactly at the target
center) the divisions dx/error and dy/error are still evaluated with a zero
divisor — the zero-error case is not special-cased before the division,
refuting the claim as stated (the selected directive is nevertheless
'krest'). -/
theorem C4_counterexample :
    (move_towards_target sqrtZeroModel acosNanModel 0 0 1 0 "Krest").divByZero
        = true ∧
      (move_towards_target sqrtZeroModel acosNanModel 0 0 1 0 "Krest").selected
        = some ("krest", 0) := by
  constructor
  · norm_num [move_towards_target, sqrtZeroModel, npGt, dispatchStep]
  · norm_num [move_towards_target, sqrtZeroModel, npGt, dispatchStep]

/-- C4 amended: when the robot position coincides with the target center
(direction vector (0,0), so error = 0) the controller selects Rest and no
divide-by-zero exception occurs, but not because of a special case: the
divisions by the zero error are evaluated (divByZero = true, yielding NaN
travel components) and Rest is selected because the arrival branch
error > 20 is false. -/
theorem C4_zero_error (sqrtF : ℚ → NpVal) (acosF : NpVal → NpVal)
    (rx ry : ℚ) (cur : String) (h : sqrtF 0 = NpVal.num 0) :
    (move_towards_target sqrtF acosF 0 0 rx ry cur).selected = some ("krest", 0) ∧
      (move_towards_target sqrtF acosF 0 0 rx ry cur).divByZero = true := by
  have h0 : (0 : ℚ) ^ 2 + 0 ^ 2 = 0 := by norm_num
  have h20 : ¬ ((20 : ℚ) < 0) := by norm_num
  constructor <;>
    simp [move_towards_target, h0, h, npGt, dispatchStep, h20, publish_command]

/-- C4 witness: the amended theorem at a concrete pose and stored command. -/
theorem C4_zero_error_witness :
    (move_towards_target sqrtZeroModel acosNanModel 0 0 2 3 "abc").selected
        = some ("krest", 0) ∧
      (move_towards_target sqrtZeroModel acosNanModel 0 0 2 3 "abc").divByZero
        = true :=
  C4_zero_error sqrtZeroModel acosNanModel 2 3 "abc" (by rfl)

/-- C8: the heading controller is idempotent under the dispatch debounce —
repeating a navigation step with the identical direction vector and heading
selects the same directive and publishes nothing the second time, because
publish_command only dispatches when the selected command differs from the
stored current_cmd. -/
theorem C8_debounce_idempotent (sqrtF : ℚ → NpVal) (acosF : NpVal → NpVal)
    (dx dy rx ry : ℚ) (cur : String) :
    (move_towards_target sqrtF acosF dx dy rx ry
        (move_towards_target sqrtF acosF dx dy rx ry cur).newCmd).selected =
      (move_towards_target sqrtF acosF dx dy rx ry cur).selected ∧
    (move_towards_target sqrtF acosF dx dy rx ry
        (move_towards_target sqrtF acosF dx dy rx ry cur).newCmd).published
      = none := by
  simp only [move_towards_target]
  have h := dispatchStep_twice
    (if npGt (sqrtF (dx ^ 2 + dy ^ 2)) (.num 20) then
        adjust_heading (acosF (npAdd
          (npMul (npDiv (.num dx) (sqrtF (dx ^ 2 + dy ^ 2))) (.num rx))
          (npMul (npDiv (.num dy) (sqrtF (dx ^ 2 + dy ^ 2))) (.num ry))))
      else some ("krest", 0))
    cur (decide (sqrtF (dx ^ 2 + dy ^ 2) = NpVal.num 0))
    (decide (sqrtF (dx ^ 2 + dy ^ 2) = NpVal.num 0))
  refine ⟨?_, h.2⟩
  rw [h.1, dispatchStep_selected]

/-- C9: every angle produced by the arccos computation is NaN or a
nonnegative number of degrees, so the sign tests theta > 0 in
adjust_heading never take the right-turn side: for every pose input the
controller neither selects nor publishes the fast-spin-right 'kvtR' or the
arc-turn-right 'kcrR' command. -/
theorem C9_never_turn_right (sqrtF : ℚ → NpVal) (acosF : NpVal → NpVal)
    (hacos : ∀ x, acosF x = NpVal.nan ∨ ∃ q, acosF x = NpVal.num q ∧ 0 ≤ q)
    (dx dy rx ry : ℚ) (cur : String) (d : ℚ) :
    ((move_towards_target sqrtF acosF dx dy rx ry cur).selected ≠ some ("kvtR", d) ∧
      (move_towards_target sqrtF acosF dx dy rx ry cur).selected ≠ some ("kcrR", d)) ∧
    ((move_towards_target sqrtF acosF dx dy rx ry cur).published ≠ some ("kvtR", d) ∧
      (move_towards_target sqrtF acosF dx dy rx ry cur).published ≠ some ("kcrR", d)) := by
  simp only [move_towards_target]
  set sel := (if npGt (sqrtF (dx ^ 2 + dy ^ 2)) (.num 20) then
      adjust_heading (acosF (npAdd
        (npMul (npDiv (.num dx) (sqrtF (dx ^ 2 + dy ^ 2))) (.num rx))
        (npMul (npDiv (.num dy) (sqrtF (dx ^ 2 + dy ^ 2))) (.num ry))))
    else some ("krest", 0)) with hsel
  have hok : sel ≠ some ("kvtR", d) ∧ sel ≠ some ("kcrR", d) := by
    rw [hsel]
    split
    · exact adjust_heading_no_right _ (hacos _) d
    · constructor <;> simp
  constructor
  · rw [dispatchStep_selected]; exact hok
  · rcases dispatchStep_published sel cur
        (decide (sqrtF (dx ^ 2 + dy ^ 2) = NpVal.num 0)) with h | h <;> rw [h]
    · constructor <;> simp
    · exact hok

/-- C9 witness: the theorem at a conforming arccos model (constantly NaN)
and a concrete pose. -/
theorem C9_never_turn_right_witness :
    ((move_towards_target sqrtZeroModel acosNanModel 0 0 1 0 "Krest").selected
        ≠ some ("kvtR", 1/2) ∧
      (move_towards_target sqrtZeroModel acosNanModel 0 0 1 0 "Krest").selected
        ≠ some ("kcrR", 1/2)) ∧
    ((move_towards_target sqrtZeroModel acosNanModel 0 0 1 0 "Krest").published
        ≠ some ("kvtR", 1/2) ∧
      (move_towards_target sqrtZeroModel acosNanModel 0 0 1 0 "Krest").published
        ≠ some ("kcrR", 1/2)) :=
  C9_never_turn_right sqrtZeroModel acosNanModel (fun _ => Or.inl rfl)
    0 0 1 0 "Krest" (1/2)

theorem classifyFrom_eq (xywhn : List ℚ) :
    ∀ (rs : List ℤ) (i : Nat),
      classifyFrom xywhn i rs =
        (((rs.enumFrom i).filter (fun p => p.2 == 0)).map
            (fun p => (xywhn.drop (4 * p.1)).take 4),
          ((rs.enumFrom i).filter (fun p => p.2 == 1)).map
            (fun p => (xywhn.drop (4 * p.1)).take 4),
          ((rs.enumFrom i).filter (fun p => p.2 == 2)).map
            (fun p => (xywhn.drop (4 * p.1)).take 4)) := by
  intro rs
  induction rs with
  | nil => intro i; rfl
  | cons r rs ih =>
    intro i
    by_cases h0 : r = 0
    · simp [classifyFrom, List.enumFrom, List.filter_cons, h0, ih]
    · by_cases h1 : r = 1
      · simp [classifyFrom, List.enumFrom, List.filter_cons, h0, h1, ih]
      · by_cases h2 : r = 2
        · simp [classifyFrom, List.enumFrom, List.filter_cons, h0, h1, h2, ih]
        · simp [classifyFrom, List.enumFrom, List.filter_cons, h0, h1, h2, ih]

theorem classifyFrom_len (xywhn : List ℚ) :
    ∀ (rs : List ℤ) (i : Nat), (∀ r ∈ rs, r = 0 ∨ r = 1 ∨ r = 2) →
      (classifyFrom xywhn i rs).1.length + (classifyFrom xywhn i rs).2.1.length +
        (classifyFrom xywhn i rs).2.2.length = rs.length := by
  intro rs
  induction rs with
  | nil => intro i _; rfl
  | cons r rs ih =>
    intro i hall
    have htl : ∀ x ∈ rs, x = 0 ∨ x = 1 ∨ x = 2 :=
      fun x hx => hall x (List.mem_cons_of_mem _ hx)
    have hrec := ih (i + 1) htl
    rcases hall r (List.mem_cons_self _ _) with rfl | rfl | rfl <;>
      simp [classifyFrom] <;> omega

/-- C7 counterexample: a batch with matching counts (one class id, four bbox
values) but the unrecognized class id 3 is silently dropped: all three
output lists are empty, so their total size is 0, not the input count 1. -/
theorem C7_counterexample :
    classify [3] [1, 2, 3, 4] = ([], [], []) ∧
      ([1, 2, 3, 4] : List ℚ).length = 4 * ([3] : List ℤ).length ∧
      (classify [3] [1, 2, 3, 4]).1.length +
          (classify [3] [1, 2, 3, 4]).2.1.length +
          (classify [3] [1, 2, 3, 4]).2.2.length ≠ ([3] : List ℤ).length := by
  refine ⟨?_, ?_, ?_⟩ <;> decide

/-- C7 amended: for every batch whose class ids and bbox tuples have
matching counts, each output list is exactly the batch-ordered sequence of
4-slices of the detections of its class (so the three lists partition the
recognized detections: the underlying index sets are pairwise disjoint),
and when additionally every class id is recognized (0, 1 or 2) the total
size of the three lists equals the input detection count. -/
theorem C7_classifier (results : List ℤ) (xywhn : List ℚ)
    (hlen : xywhn.length = 4 * results.length) :
    ((classify results xywhn).1 =
        ((results.enum.filter (fun p => p.2 == 0)).map
          (fun p => (xywhn.drop (4 * p.1)).take 4)) ∧
      (classify results xywhn).2.1 =
        ((results.enum.filter (fun p => p.2 == 1)).map
          (fun p => (xywhn.drop (4 * p.1)).take 4)) ∧
      (classify results xywhn).2.2 =
        ((results.enum.filter (fun p => p.2 == 2)).map
          (fun p => (xywhn.drop (4 * p.1)).take 4))) ∧
    (∀ p : Nat × ℤ,
      ¬(p ∈ results.enum.filter (fun p => p.2 == 0) ∧
          p ∈ results.enum.filter (fun p => p.2 == 1)) ∧
      ¬(p ∈ results.enum.filter (fun p => p.2 == 0) ∧
          p ∈ results.enum.filter (fun p => p.2 == 2)) ∧
      ¬(p ∈ results.enum.filter (fun p => p.2 == 1) ∧
          p ∈ results.enum.filter (fun p => p.2 == 2))) ∧
    ((∀ r ∈ results, r = 0 ∨ r = 1 ∨ r = 2) →
      (classify results xywhn).1.length + (classify results xywhn).2.1.length +
        (classify results xywhn).2.2.length = results.length) := by
  refine ⟨⟨?_, ?_, ?_⟩, ?_, ?_⟩
  · exact congrArg (fun z => z.1) (classifyFrom_eq xywhn results 0)
  · exact congrArg (fun z => z.2.1) (classifyFrom_eq xywhn results 0)
  · exact congrArg (fun z => z.2.2) (classifyFrom_eq xywhn results 0)
  · intro p
    refine ⟨?_, ?_, ?_⟩ <;> rintro ⟨hp1, hp2⟩ <;>
      simp only [List.mem_filter, beq_iff_eq] at hp1 hp2 <;> omega
  · intro hall
    exact classifyFrom_len xywhn results 0 hall

/-- C7 witness: a single recognized acorn detection. -/
theorem C7_classifier_witness :
    (classify [0] [1, 2, 3, 4]).1.length + (classify [0] [1, 2, 3, 4]).2.1.length +
      (classify [0] [1, 2, 3, 4]).2.2.length = ([0] : List ℤ).length :=
  (C7_classifier [0] [1, 2, 3, 4] (by decide)).2.2 (by decide)

/-! ## Arbitration buffer lemmas -/

theorem dedupFoldl_spec (l : List String) :
    ∀ (rs pre acc : List String),
      l = pre ++ rs →
      (∀ a, a ∈ acc ↔ a ∈ pre) →
      acc.Pairwise (fun a b => List.indexOf a l < List.indexOf b l) →
      (rs.foldl (fun acc t => if t ∈ acc then acc else acc ++ [t]) acc).Pairwise
          (fun a b => List.indexOf a l < List.indexOf b l) ∧
        (∀ a, a ∈ rs.foldl (fun acc t => if t ∈ acc then acc else acc ++ [t]) acc ↔
          a ∈ pre ++ rs) := by
  intro rs
  induction rs with
  | nil =>
    intro pre acc hl hmem hpw
    exact ⟨hpw, fun a => by simpa using hmem a⟩
  | cons x rs ih =>
    intro pre acc hl hmem hpw
    simp only [List.foldl_cons]
    have hl2 : l = (pre ++ [x]) ++ rs := by rw [hl]; simp
    have happ : ∀ a : String, a ∈ (pre ++ [x]) ++ rs ↔ a ∈ pre ++ x :: rs := by
      intro a; simp [or_assoc, List.mem_append, List.mem_cons]
    by_cases hx : x ∈ acc
    · rw [if_pos hx]
      have hmem2 : ∀ a, a ∈ acc ↔ a ∈ pre ++ [x] := by
        intro a
        rw [hmem a]
        constructor
        · intro h; exact List.mem_append.mpr (Or.inl h)
        · intro h
          rcases List.mem_append.mp h with h | h
          · exact h
          · rcases List.mem_singleton.mp h with rfl
            exact (hmem a).mp hx
      obtain ⟨h1, h2⟩ := ih (pre ++ [x]) acc hl2 hmem2 hpw
      exact ⟨h1, fun a => (h2 a).trans (happ a)⟩
    · rw [if_neg hx]
      have hmem2 : ∀ a, a ∈ acc ++ [x] ↔ a ∈ pre ++ [x] := by
        intro a
        simp only [List.mem_append, List.mem_singleton, hmem a]
      have hxpre : x ∉ pre := fun h => hx ((hmem x).mpr h)
      have hxidx : List.indexOf x l = pre.length := by
        rw [hl, List.indexOf_append_of_not_mem hxpre, List.indexOf_cons_self]
        omega
      have hpw2 : (acc ++ [x]).Pairwise
          (fun a b => List.indexOf a l < List.indexOf b l) := by
        rw [List.pairwise_append]
        refine ⟨hpw, List.pairwise_singleton _ _, ?_⟩
        intro a ha b hb
        rcases List.mem_singleton.mp hb with rfl
        have hapre : a ∈ pre := (hmem a).mp ha
        rw [hxidx, hl, List.indexOf_append_of_mem hapre]
        exact List.indexOf_lt_length.mpr hapre
      obtain ⟨h1, h2⟩ := ih (pre ++ [x]) (acc ++ [x]) hl2 hmem2 hpw2
      exact ⟨h1, fun a => (h2 a).trans (happ a)⟩

theorem dedupFirst_mem (l : List String) (a : String) :
    a ∈ dedupFirst l ↔ a ∈ l := by
  have h := dedupFoldl_spec l l [] [] (by simp) (by simp) List.Pairwise.nil
  simpa [dedupFirst] using h.2 a

theorem dedupFirst_pairwise (l : List String) :
    (dedupFirst l).Pairwise (fun a b => List.indexOf a l < List.indexOf b l) := by
  have h := dedupFoldl_spec l l [] [] (by simp) (by simp) List.Pairwise.nil
  simpa [dedupFirst] using h.1

theorem foldlMax_spec (f : String → Nat) :
    ∀ (xs : List String) (best : String),
      ∃ r, xs.foldl (fun b x => if f b < f x then x else b) best = r ∧
        ((r = best ∧ ∀ x ∈ xs, f x ≤ f best) ∨
          (∃ l1 l2, xs = l1 ++ r :: l2 ∧ f best < f r ∧
            (∀ y ∈ l1, f y < f r) ∧ (∀ y ∈ l2, f y ≤ f r))) := by
  intro xs
  induction xs with
  | nil => intro best; exact ⟨best, rfl, Or.inl ⟨rfl, by simp⟩⟩
  | cons x xs ih =>
    intro best
    simp only [List.foldl_cons]
    by_cases h : f best < f x
    · rw [if_pos h]
      obtain ⟨r, hr, hcase⟩ := ih x
      refine ⟨r, hr, Or.inr ?_⟩
      rcases hcase with ⟨req, hall⟩ | ⟨l1, l2, heq, hlt, hpre, hpost⟩
      · subst req
        exact ⟨[], xs, rfl, h, by simp, hall⟩
      · refine ⟨x :: l1, l2, by rw [heq]; rfl, lt_trans h hlt, ?_, hpost⟩
        intro y hy
        rcases List.mem_cons.mp hy with rfl | hy2
        · exact hlt
        · exact hpre y hy2
    · rw [if_neg h]
      obtain ⟨r, hr, hcase⟩ := ih best
      refine ⟨r, hr, ?_⟩
      rcases hcase with ⟨req, hall⟩ | ⟨l1, l2, heq, hlt, hpre, hpost⟩
      · subst req
        refine Or.inl ⟨rfl, ?_⟩
        intro y hy
        rcases List.mem_cons.mp hy with rfl | hy2
        · exact le_of_not_lt h
        · exact hall y hy2
      · refine Or.inr ⟨x :: l1, l2, by rw [heq]; rfl, hlt, ?_, hpost⟩
        intro y hy
        rcases List.mem_cons.mp hy with rfl | hy2
        · exact lt_of_le_of_lt (le_of_not_lt h) hlt
        · exact hpre y hy2

theorem maxByKey_spec (f : String → Nat) (l : List String) (hl : l ≠ []) :
    ∃ r, maxByKey f l = some r ∧ ∃ l1 l2, l = l1 ++ r :: l2 ∧
      (∀ y ∈ l1, f y < f r) ∧ (∀ y ∈ l2, f y ≤ f r) := by
  match l, hl with
  | t :: ts, _ =>
    obtain ⟨r, hr, hcase⟩ := foldlMax_spec f ts t
    refine ⟨r, by simp [maxByKey, hr], ?_⟩
    rcases hcase with ⟨req, hall⟩ | ⟨l1, l2, heq, hlt, hpre, hpost⟩
    · subst req
      exact ⟨[], ts, rfl, by simp, hall⟩
    · refine ⟨t :: l1, l2, by rw [heq]; rfl, ?_, hpost⟩
      intro y hy
      rcases List.mem_cons.mp hy with rfl | hy2
      · exact hlt
      · exact hpre y hy2

/-- C1: for every non-empty candidate buffer the pair chosen for dispatch by
publish_command is literally present in the buffer, its command is a most
frequent command token of the buffer, and among equally frequent tokens it
is the one whose first occurrence in buffer order is earliest; for the
buffer [A,B,A,C,A] the dispatched pair is (A, 0). -/
theorem C1_arbitration_mode :
    (∀ cl : List (String × ℚ), cl ≠ [] →
      ∃ t p, most_frequent_command cl = some t ∧ command_to_send cl = some p ∧
        p ∈ cl ∧ p.1 = t ∧
        (∀ c ∈ cl.map Prod.fst,
          (cl.map Prod.fst).count c ≤ (cl.map Prod.fst).count t) ∧
        (∀ c ∈ cl.map Prod.fst,
          (cl.map Prod.fst).count c = (cl.map Prod.fst).count t →
            List.indexOf t (cl.map Prod.fst) ≤ List.indexOf c (cl.map Prod.fst))) ∧
    command_to_send [("A", 0), ("B", 0), ("A", 0), ("C", 0), ("A", 0)] =
      some ("A", 0) := by
  constructor
  · intro cl hcl
    have htokne : cl.map Prod.fst ≠ [] := by
      intro h
      exact hcl (List.map_eq_nil_iff.mp h)
    have hDne : dedupFirst (cl.map Prod.fst) ≠ [] := by
      obtain ⟨a, ha⟩ := List.exists_mem_of_ne_nil _ htokne
      intro h
      rw [← dedupFirst_mem] at ha
      rw [h] at ha
      cases ha
    obtain ⟨r, hmax, l1, l2, heq, hpre, hpost⟩ :=
      maxByKey_spec (fun c => (cl.map Prod.fst).count c) _ hDne
    have hrD : r ∈ dedupFirst (cl.map Prod.fst) := by
      rw [heq]
      exact List.mem_append.mpr (Or.inr (List.mem_cons_self _ _))
    have hrtok : r ∈ cl.map Prod.fst := (dedupFirst_mem _ r).mp hrD
    have hmfc : most_frequent_command cl = some r := hmax
    have hfind : ∃ p, cl.find? (fun p => p.1 == r) = some p := by
      obtain ⟨q, hq, hq2⟩ := List.mem_map.mp hrtok
      have : (cl.find? (fun p => p.1 == r)).isSome := by
        rw [List.find?_isSome]
        exact ⟨q, hq, by simp [hq2]⟩
      exact Option.isSome_iff_exists.mp this
    obtain ⟨p, hp⟩ := hfind
    have hpmem : p ∈ cl := List.mem_of_find?_eq_some hp
    have hpfst : p.1 = r := by
      have := List.find?_some hp
      simpa using this
    refine ⟨r, p, hmfc, ?_, hpmem, hpfst, ?_, ?_⟩
    · simp [command_to_send, hmfc, hp]
    · intro c hc
      have hcD : c ∈ dedupFirst (cl.map Prod.fst) := (dedupFirst_mem _ c).mpr hc
      rw [heq] at hcD
      rcases List.mem_append.mp hcD with hc1 | hc2
      · exact le_of_lt (hpre c hc1)
      · rcases List.mem_cons.mp hc2 with rfl | hc3
        · exact le_refl _
        · exact hpost c hc3
    · intro c hc hcount
      have hcD : c ∈ dedupFirst (cl.map Prod.fst) := (dedupFirst_mem _ c).mpr hc
      rw [heq] at hcD
      rcases List.mem_append.mp hcD with hc1 | hc2
      · exact absurd hcount (ne_of_lt (hpre c hc1))
      · rcases List.mem_cons.mp hc2 with rfl | hc3
        · exact le_refl _
        · have hpw := dedupFirst_pairwise (cl.map Prod.fst)
          rw [heq] at hpw
          have h2 := (List.pairwise_append.mp hpw).2.1
          exact le_of_lt (List.rel_of_pairwise_cons h2 hc3)
  · decide

/-- C1 witness: the arbitration properties instantiated at the buffer
[A,B,A,C,A]. -/
theorem C1_arbitration_mode_witness :
    ∃ t p,
      most_frequent_command [("A", 0), ("B", 0), ("A", 0), ("C", 0), ("A", 0)]
          = some t ∧
        command_to_send [("A", 0), ("B", 0), ("A", 0), ("C", 0), ("A", 0)]
          = some p ∧
        p ∈ [("A", 0), ("B", 0), ("A", 0), ("C", 0), ("A", 0)] ∧ p.1 = t ∧
        (∀ c ∈ List.map Prod.fst [("A", 0), ("B", 0), ("A", 0), ("C", 0), ("A", 0)],
          (List.map Prod.fst
              [("A", 0), ("B", 0), ("A", 0), ("C", 0), ("A", 0)]).count c ≤
            (List.map Prod.fst
              [("A", 0), ("B", 0), ("A", 0), ("C", 0), ("A", 0)]).count t) ∧
        (∀ c ∈ List.map Prod.fst [("A", 0), ("B", 0), ("A", 0), ("C", 0), ("A", 0)],
          (List.map Prod.fst
              [("A", 0), ("B", 0), ("A", 0), ("C", 0), ("A", 0)]).count c =
            (List.map Prod.fst
              [("A", 0), ("B", 0), ("A", 0), ("C", 0), ("A", 0)]).count t →
            List.indexOf t
                (List.map Prod.fst
                  [("A", 0), ("B", 0), ("A", 0), ("C", 0), ("A", 0)]) ≤
              List.indexOf c
                (List.map Prod.fst
                  [("A", 0), ("B", 0), ("A", 0), ("C", 0), ("A", 0)])) :=
  C1_arbitration_mode.1 [("A", 0), ("B", 0), ("A", 0), ("C", 0), ("A", 0)]
    (by decide)

end BittleROS2
